import Mathlib

/-!
Verification development for the outbound SMTP delivery engine (`sail`).

The definitions below shallowly embed the code of `src/src/smtp/client.rs`
and `src/src/config.rs`.  Strings are embedded as `List Char` (the code only
observes character-level structure of its ASCII buffers).  Rust panics
(`todo!()` / `unreachable!()`) are embedded as an explicit `panic` outcome.
Types declared in repository modules that are not present under `src/`
(`smtp/args.rs`, `smtp/mod.rs`) are modelled from the specification, as
marked on each such definition.
-/

namespace Sail

/-- Modelled from the spec: `LocalPart` (validated mailbox-local string) is
declared in `smtp/args.rs`, which is not present under `src/`. -/
structure LocalPart where
  chars : List Char
deriving DecidableEq, Repr

/-- Model of an IP address; only its identity matters to the embedded code. -/
structure IpAddr where
  val : Nat
deriving DecidableEq, Repr

/-- Modelled from the spec: `Domain` is `FQDN(name)` or `Literal(ip)`,
declared in `smtp/args.rs`, which is not present under `src/`. -/
inductive Domain where
  | FQDN (name : List Char)
  | Literal (ip : IpAddr)
deriving DecidableEq, Repr

/-- Modelled from the spec: domain equality is case-normalized for FQDN
comparison and exact for literal IPs. -/
def Domain.deq : Domain → Domain → Bool
  | .FQDN a, .FQDN b => a.map Char.toLower = b.map Char.toLower
  | .Literal x, .Literal y => x = y
  | _, _ => false

/-- Modelled from the spec: a full mailbox address, `smtp/args.rs`. -/
structure Path where
  local_part : LocalPart
  domain : Domain
deriving DecidableEq, Repr

/-- Modelled from the spec: the envelope sender, `smtp/args.rs`. -/
inductive ReversePath where
  | Null
  | Regular (p : Path)
deriving DecidableEq, Repr

/-- Modelled from the spec: an envelope recipient, `smtp/args.rs`. -/
inductive ForwardPath where
  | Postmaster
  | Regular (p : Path)
deriving DecidableEq, Repr

/-- Modelled from the spec: the outbound SMTP verbs, declared in a module not
present under `src/`. -/
inductive Command where
  | Ehlo (d : Domain)
  | Mail (rp : ReversePath)
  | Rcpt (fp : ForwardPath)
  | Data
  | Quit
deriving DecidableEq, Repr

/-- Modelled from the spec: `ResponseCode` names the codes the state machine
acts on (220, 250, 251, 354) plus a generic negative classification for
4xx/5xx; unmapped codes yield no value.  Declared in a module not present
under `src/`. -/
inductive ResponseCode where
  | ServiceReady
  | Okay
  | UserNotLocalWillForward
  | StartMailInput
  | Negative (code : Nat)
deriving DecidableEq, Repr

/-- Modelled from the spec: `ResponseCode::from_code`. -/
def ResponseCode.from_code (n : Nat) : Option ResponseCode :=
  if n = 220 then some .ServiceReady
  else if n = 250 then some .Okay
  else if n = 251 then some .UserNotLocalWillForward
  else if n = 354 then some .StartMailInput
  else if 400 ≤ n ∧ n < 600 then some (.Negative n)
  else none

/-- The message envelope held by a `Client` (fields as used by
`src/src/smtp/client.rs`; the type itself is declared in a module not present
under `src/`). -/
structure Message where
  reverse_path : ReversePath
  forward_paths : List ForwardPath
  data : List (List Char)
deriving DecidableEq, Repr

/-- The session states, embedding `enum State` of `src/src/smtp/client.rs`
(lines 264-272): note the code has `SendingData`, and six states in all. -/
inductive State where
  | Initiated
  | Greeted
  | SentReversePath
  | SendingForwardPaths
  | SendingData
  | ShouldExit
deriving DecidableEq, Repr

/-- Embeds `struct Client` of `src/src/smtp/client.rs` (lines 1-6). -/
structure Client where
  state : State
  reply : List Char
  message : Message
deriving DecidableEq, Repr

/-- Result of `push`/`process_reply`: Rust's `Option<Command>` return value
together with the mutated receiver, or a panic (`todo!()`/`unreachable!()`). -/
inductive PushResult where
  | ok (cmd : Option Command) (c : Client)
  | panic
deriving DecidableEq, Repr

/-- Embeds `Client::initiate` (lines 25-38): fresh state, empty buffer. -/
def Client.initiate (forward_paths : List ForwardPath) (reverse_path : ReversePath)
    (data : List (List Char)) : Client :=
  { state := .Initiated, reply := [], message := ⟨reverse_path, forward_paths, data⟩ }

/-- `self.reply.ends_with("\r\n")`. -/
def endsCRLF (l : List Char) : Bool :=
  match l.reverse with
  | '\n' :: '\r' :: _ => true
  | _ => false

/-- One decimal digit, as in Rust's integer parsing. -/
def digitVal (c : Char) : Option Nat :=
  if '0' ≤ c ∧ c ≤ '9' then some (c.toNat - '0'.toNat) else none

/-- Decimal run parse: nonempty all-digit strings only. -/
def parseDigits (l : List Char) : Option Nat :=
  match l with
  | [] => none
  | _ => l.foldl (fun acc c => match acc, digitVal c with
      | some a, some d => some (a * 10 + d)
      | _, _ => none) (some 0)

/-- Embeds `code.parse::<u16>()` on the 3-character code slice: optional
leading `+`, then decimal digits (no overflow is possible at 3 characters). -/
def parseU16 (l : List Char) : Option Nat :=
  match l with
  | '+' :: rest => parseDigits rest
  | _ => parseDigits l

/-- `"Sail".parse().unwrap()` at line 64. -/
def sailDomain : Domain := .FQDN ['S', 'a', 'i', 'l']

/-- `Vec::pop`: removes and returns the last element. -/
def listPop {α : Type} (l : List α) : Option α × List α :=
  match l.getLast? with
  | none => (none, l)
  | some x => (some x, l.dropLast)

/-- Embeds `Client::process_reply` (lines 50-103).  The `?` operators on
`parse`/`from_code` return `None` without touching the state; `todo!()` and
`unreachable!()` arms are `panic`.  In the `SentReversePath` arm the state is
assigned before `forward_paths.pop()?`, so the state change persists even when
the pop fails; in the `SendingForwardPaths` arm the pop happens before the
code match. -/
def Client.process_reply (c : Client) : PushResult :=
  if c.reply.length < 3 ∨ ¬ c.reply.all (fun ch => ch.toNat ≤ 127) then .ok none c
  else
    match parseU16 (c.reply.take 3) with
    | none => .ok none c
    | some n =>
      match ResponseCode.from_code n with
      | none => .ok none c
      | some code =>
        match c.state with
        | .Initiated =>
          match code with
          | .ServiceReady => .ok (some (.Ehlo sailDomain)) { c with state := .Greeted }
          | _ => .panic
        | .Greeted =>
          match code with
          | .Okay => .ok (some (.Mail c.message.reverse_path)) { c with state := .SentReversePath }
          | _ => .panic
        | .SentReversePath =>
          match code with
          | .Okay =>
            match listPop c.message.forward_paths with
            | (none, _) => .ok none { c with state := .SendingForwardPaths }
            | (some p, rest) =>
              .ok (some (.Rcpt p))
                { c with state := .SendingForwardPaths,
                         message := { c.message with forward_paths := rest } }
          | _ => .panic
        | .SendingForwardPaths =>
          match listPop c.message.forward_paths with
          | (some p, rest) =>
            match code with
            | .Okay | .UserNotLocalWillForward =>
              .ok (some (.Rcpt p)) { c with message := { c.message with forward_paths := rest } }
            | _ => .panic
          | (none, _) =>
            match code with
            | .Okay | .UserNotLocalWillForward =>
              .ok (some .Data) { c with state := .SendingData }
            | _ => .panic
        | .SendingData => .panic
        | .ShouldExit => .panic

/-- Embeds `Client::push` (lines 39-49): append the fragment, return `None`
until the buffer ends in CRLF, then classify.  The buffer is never cleared. -/
def Client.push (c : Client) (reply : List Char) : PushResult :=
  let r := c.reply ++ reply
  if endsCRLF r then Client.process_reply { c with reply := r }
  else .ok none { c with reply := r }

/-- Embeds `Client::should_exit` (lines 259-261). -/
def Client.should_exit (c : Client) : Bool :=
  c.state = .ShouldExit

/-- The DNS capability as seen by `get_mx_record`/`get_ip`: `mx_lookup`
returns `(preference, exchange-name)` pairs, `lookup_ip` returns addresses;
`none` covers lookup errors (and resolver-construction failure). -/
structure Dns where
  mx_lookup : List Char → Option (List (Nat × List Char))
  lookup_ip : List Char → Option (List IpAddr)

/-- `mx_rec.sort_by(|(pref1,_),(pref2,_)| pref1.cmp(pref2))`: Rust's
`sort_by` is a stable sort, whose result is the unique preference-sorted
permutation preserving the relative order of ties; insertion sort computes
exactly that list. -/
def sortByPref (l : List (Nat × List Char)) : List (Nat × List Char) :=
  List.insertionSort (fun a b => a.1 ≤ b.1) l

/-- Embeds `Client::get_mx_record` (lines 105-119): sort the MX records by
preference, take the first, resolve its exchange name, take the first
address. -/
def Client.get_mx_record (dns : Dns) (fqdn : List Char) : Option IpAddr :=
  match dns.mx_lookup fqdn with
  | none => none
  | some recs =>
    match (sortByPref recs).head? with
    | none => none
    | some m =>
      match dns.lookup_ip m.2 with
      | none => none
      | some ips => ips.head?

/-- Embeds `Client::get_ip` (lines 121-127). -/
def Client.get_ip (dns : Dns) (fqdn : List Char) : Option IpAddr :=
  match dns.lookup_ip fqdn with
  | none => none
  | some ips => ips.head?

/-- An address resolution outcome of the dispatcher; `panic` is the
`todo!()` hit when every lookup path fails. -/
inductive ResolveResult where
  | ok (a : IpAddr)
  | panic
deriving DecidableEq, Repr

/-- Embeds the per-domain-group address selection of `Client::run`
(lines 168-181): a literal IP is used directly (no lookup), otherwise
`get_mx_record` then `get_ip`, and if both fail the code hits `todo!()`. -/
def Client.run_resolve_address (dns : Dns) : Domain → ResolveResult
  | .Literal ip => .ok ip
  | .FQDN name =>
    match Client.get_mx_record dns name with
    | some a => .ok a
    | none =>
      match Client.get_ip dns name with
      | some a => .ok a
      | none => .panic

/-- Embeds `struct Config` of `src/src/config.rs` (lines 3-9). -/
structure Config where
  hostnames : List Domain
  relays : List Domain
  users : List LocalPart

/-- Embeds `Config::path_is_local` (`src/src/config.rs` lines 19-21):
`self.hostnames.contains(&path.domain)`. -/
def Config.path_is_local (cfg : Config) (p : Path) : Bool :=
  cfg.hostnames.any (fun d => Domain.deq d p.domain)

/-- Embeds `Config::forward_path_is_local` (`src/src/config.rs` lines
12-17). -/
def Config.forward_path_is_local (cfg : Config) (forward : ForwardPath) : Bool :=
  match forward with
  | .Postmaster => true
  | .Regular p => cfg.path_is_local p

/-- Rendering of a domain into an address string, for bounce bodies. -/
def Domain.render : Domain → List Char
  | .FQDN name => name
  | .Literal ip => '[' :: (Nat.toDigits 10 ip.val ++ [']'])

/-- Rendering of a mailbox address, for bounce bodies. -/
def Path.render (p : Path) : List Char :=
  p.local_part.chars ++ '@' :: p.domain.render

/-- The fixed text opening each per-recipient rejection line. -/
def rejectedHeader : List Char := "The host rejected ".toList

/-- One bounce-body line naming a rejected recipient. -/
def rejectedLine (p : Path) : List Char := rejectedHeader ++ p.render

/-- Modelled from the spec: the fixed preamble of a bounce body (§4.6). -/
def bouncePreamble : List (List Char) :=
  ["Your message could not be delivered to the following recipients.".toList]

/-- Does a body line name a rejected recipient? -/
def isRejectedLine (l : List Char) : Bool := rejectedHeader.isPrefixOf l

/-- Modelled from the spec: the bounce synthesizer `undeliverable` (§4.3,
§4.6) is not present under `src/` (the `Client` in `src/src/smtp/client.rs`
holds no rejected list).  Given the original message's sender mailbox and the
rejected recipients, it returns nothing when none were rejected, and
otherwise a notification with a null reverse path, addressed to the original
sender, whose body is the fixed preamble plus one rejection line per
rejected recipient. -/
def undeliverable (sender : Path) (rejected : List Path) : Option Message :=
  match rejected with
  | [] => none
  | _ =>
    some { reverse_path := .Null,
           forward_paths := [.Regular sender],
           data := bouncePreamble ++ rejected.map rejectedLine }

/-! Concrete sample values used by the closed theorems and witnesses. -/

/-- Sample reply line `"220 ok\r\n"`. -/
def line220 : List Char := "220 ok\r\n".toList

/-- Sample reply line `"250 ok\r\n"`. -/
def line250 : List Char := "250 ok\r\n".toList

/-- Sample reply line `"550 no such user\r\n"`. -/
def line550 : List Char := "550 no such user\r\n".toList

/-- Sample destination domain `example.com`. -/
def domExample : Domain := .FQDN "example.com".toList

/-- Sample recipient mailbox `gen@example.com`. -/
def pGen : Path := ⟨⟨"gen".toList⟩, domExample⟩

/-- Sample recipient mailbox `ned@example.com`. -/
def pNed : Path := ⟨⟨"ned".toList⟩, domExample⟩

/-- Sample forward path for `gen@example.com`. -/
def fpGen : ForwardPath := .Regular pGen

/-- Sample forward path for `ned@example.com`. -/
def fpNed : ForwardPath := .Regular pNed

/-- Sample envelope sender `sam@example.com`. -/
def rpSam : ReversePath := .Regular ⟨⟨"sam".toList⟩, domExample⟩

/-- Sample message body line. -/
def bodyLine : List Char := "hi".toList

/-- The client after the first happy-path push: greeted, with the greeting
line still sitting in the reply buffer. -/
def clientAfter220 : Client :=
  ⟨.Greeted, line220, ⟨rpSam, [fpGen], [bodyLine]⟩⟩

/-- The FQDN name of the sample destination domain. -/
def exName : List Char := "example.com".toList

/-- Sample MX exchange name `a.example`. -/
def nameA : List Char := "a.example".toList

/-- Sample MX exchange name `b.example`. -/
def nameB : List Char := "b.example".toList

/-- Address of `a.example`. -/
def ipA : IpAddr := ⟨1⟩

/-- Address of `b.example`. -/
def ipB : IpAddr := ⟨2⟩

/-- Address of `example.com` itself. -/
def ipC : IpAddr := ⟨3⟩

/-- A DNS environment where `example.com` has the MX records
`[(20, b.example), (10, a.example)]` and all three names resolve to
distinct addresses. -/
def dnsExample : Dns where
  mx_lookup n := if n = exName then some [(20, nameB), (10, nameA)] else none
  lookup_ip n :=
    if n = nameA then some [ipA]
    else if n = nameB then some [ipB]
    else if n = exName then some [ipC]
    else none

/-- A DNS environment where every lookup fails. -/
def dnsEmpty : Dns where
  mx_lookup _ := none
  lookup_ip _ := none

/-- Position of each state along the code's chain
`Initiated → Greeted → SentReversePath → SendingForwardPaths → SendingData →
ShouldExit`. -/
def stateIdx : State → Nat
  | .Initiated => 0
  | .Greeted => 1
  | .SentReversePath => 2
  | .SendingForwardPaths => 3
  | .SendingData => 4
  | .ShouldExit => 5

/-- Outcome of feeding a sequence of fragments to `push`: the commands
emitted along the way and the final client, or the commands emitted before a
panic. -/
inductive RunResult where
  | ok (cmds : List Command) (c : Client)
  | panicAfter (cmds : List Command)
deriving DecidableEq, Repr

/-- Feed a list of fragments to `Client.push` in order, collecting the
emitted commands. -/
def pushMany (c : Client) : List (List Char) → RunResult
  | [] => .ok [] c
  | f :: fs =>
    match Client.push c f with
    | .panic => .panicAfter []
    | .ok none c' => pushMany c' fs
    | .ok (some cmd) c' =>
      match pushMany c' fs with
      | .ok cmds c'' => .ok (cmd :: cmds) c''
      | .panicAfter cmds => .panicAfter (cmd :: cmds)

/-- `m` is the first element of `recs` attaining the minimal preference:
everything before it has strictly larger preference, everything after it has
no smaller preference. -/
def IsFirstMin (recs : List (Nat × List Char)) (m : Nat × List Char) : Prop :=
  ∃ pre post, recs = pre ++ m :: post
    ∧ (∀ y ∈ pre, m.1 < y.1) ∧ (∀ y ∈ post, m.1 ≤ y.1)

/-! Theorems. -/

/-- Claim C1: the claimed happy path fails on the code.  Feeding the happy
reply lines in order, the greeting push does emit `Ehlo`, but the very next
`"250 ok\r\n"` push panics: `push` never clears the reply buffer, so the
second completed buffer is classified by its first three characters `220`
(`ServiceReady`), which in state `Greeted` hits the `todo!()` arm.  The
session never emits `Mail`, `Rcpt`, `Data`, the body, or `Quit`, and
`should_exit()` never returns true. -/
theorem C1_happy_path_panics :
    Client.push (Client.initiate [fpGen] rpSam [bodyLine]) line220
      = .ok (some (.Ehlo sailDomain)) clientAfter220
    ∧ Client.push clientAfter220 line250 = .panic
    ∧ clientAfter220.should_exit = false := by
  decide

/-- Claim C2: the code violates the buffer-reset part of the claim.  After
the buffered line `"220 ok\r\n"` is classified and the session advances, the
reply buffer still holds the whole line instead of being reset to empty. -/
theorem C2_buffer_not_reset :
    Client.push (Client.initiate [fpGen] rpSam [bodyLine]) line220
      = .ok (some (.Ehlo sailDomain)) clientAfter220
    ∧ clientAfter220.reply = line220
    ∧ line220 ≠ [] := by
  decide

/-- Claim C3: the code violates the claim.  `Client` has no rejected list,
and a negative reply in state `SendingForwardPaths` hits the `todo!()` arm
and panics — both while forward paths remain and at the boundary where none
remain — instead of recording the recipient and continuing. -/
theorem C3_negative_reply_panics :
    Client.push ⟨.SendingForwardPaths, [], ⟨rpSam, [fpNed], [bodyLine]⟩⟩ line550 = .panic
    ∧ Client.push ⟨.SendingForwardPaths, [], ⟨rpSam, [], [bodyLine]⟩⟩ line550 = .panic := by
  decide

/-- Claim C6: when every lookup path fails, resolution indeed yields no
address, but the dispatcher side of the claim fails on the code: the
per-group address selection in `Client::run` hits `todo!()` and panics the
whole process instead of reporting a per-group failure. -/
theorem C6_resolution_failure_panics :
    Client.get_mx_record dnsEmpty exName = none
    ∧ Client.get_ip dnsEmpty exName = none
    ∧ Client.run_resolve_address dnsEmpty domExample = .panic := by
  decide

/-- Claim C7, counterexample: in state `SentReversePath`, with the message's
forward-path sequence `[gen, ned]`, a positive reply emits
`Rcpt(ned)` — the last element (`Vec::pop`) — not the first element `gen`
that the claim requires. -/
theorem C7_counterexample :
    Client.push ⟨.SentReversePath, [], ⟨rpSam, [fpGen, fpNed], [bodyLine]⟩⟩ line250
      = .ok (some (.Rcpt fpNed)) ⟨.SendingForwardPaths, line250, ⟨rpSam, [fpGen], [bodyLine]⟩⟩
    ∧ fpNed ≠ fpGen := by
  decide

/-- Claim C9, counterexample: the claimed chain has no counterpart in the
code — between `SendingForwardPaths` and `ShouldExit` the code has the single
state `SendingData`, and in it a classified positive reply panics
(`unreachable!()`) instead of advancing toward `ShouldExit`; so `ShouldExit`
is not the single state in which no further input is accepted. -/
theorem C9_counterexample :
    Client.push ⟨.SendingData, [], ⟨rpSam, [], [bodyLine]⟩⟩ line250 = .panic
    ∧ State.SendingData ≠ State.ShouldExit := by
  decide

/-- Claim C7 as amended: in state `SentReversePath` with at least one forward
path, a positive reply emits `Rcpt` carrying the *last* element of the
message's forward-path sequence (`Vec::pop` removes from the back), removes
it, and advances to `SendingForwardPaths`. -/
theorem C7_rcpt_pops_last (m : Message) (fp : ForwardPath)
    (h : m.forward_paths.getLast? = some fp) :
    Client.push ⟨.SentReversePath, [], m⟩ line250
      = .ok (some (.Rcpt fp))
          ⟨.SendingForwardPaths, line250, { m with forward_paths := m.forward_paths.dropLast }⟩ := by
  simp only [Client.push, List.nil_append, Client.process_reply, listPop, h]
  rfl

/-- Witness for C7's amended theorem at a concrete one-recipient message. -/
theorem C7_rcpt_witness :
    Client.push ⟨.SentReversePath, [], ⟨rpSam, [fpGen], [bodyLine]⟩⟩ line250
      = .ok (some (.Rcpt fpGen)) ⟨.SendingForwardPaths, line250, ⟨rpSam, [], [bodyLine]⟩⟩ :=
  C7_rcpt_pops_last ⟨rpSam, [fpGen], [bodyLine]⟩ fpGen (by decide)

/-- A non-panicking `process_reply` leaves the state in place or advances it
exactly one step along the code's chain, and never enters `ShouldExit`. -/
theorem process_reply_state_step (c : Client) (cmd : Option Command) (c' : Client)
    (h : Client.process_reply c = .ok cmd c') :
    (stateIdx c'.state = stateIdx c.state ∨ stateIdx c'.state = stateIdx c.state + 1)
    ∧ (c'.state = .ShouldExit → c.state = .ShouldExit) := by
  obtain ⟨s, r, msg⟩ := c
  unfold Client.process_reply at h
  dsimp only at h
  cases s <;> repeat' split at h
  all_goals first
    | (injection h with hcmd hc
       subst hc
       simp_all [stateIdx])
    | injection h

/-- Claim C9 as amended: a call to `push` that returns (does not panic)
leaves the session state in place or advances it exactly one step along the
code's chain `Initiated → Greeted → SentReversePath → SendingForwardPaths →
SendingData → ShouldExit`; it never moves backwards, never skips a state,
and never enters the terminal `ShouldExit` state from another state. -/
theorem C9_push_monotone (c : Client) (frag : List Char) (cmd : Option Command) (c' : Client)
    (h : Client.push c frag = .ok cmd c') :
    (stateIdx c'.state = stateIdx c.state ∨ stateIdx c'.state = stateIdx c.state + 1)
    ∧ (c'.state = .ShouldExit → c.state = .ShouldExit) := by
  unfold Client.push at h
  dsimp only at h
  split at h
  · exact process_reply_state_step ⟨c.state, c.reply ++ frag, c.message⟩ cmd c' h
  · cases h
    exact ⟨Or.inl rfl, fun hx => hx⟩

/-- Witness for C9's amended theorem: the concrete greeting push advances the
state by one step. -/
theorem C9_push_monotone_witness :
    (stateIdx clientAfter220.state = stateIdx (Client.initiate [fpGen] rpSam [bodyLine]).state
      ∨ stateIdx clientAfter220.state
          = stateIdx (Client.initiate [fpGen] rpSam [bodyLine]).state + 1)
    ∧ (clientAfter220.state = .ShouldExit
        → (Client.initiate [fpGen] rpSam [bodyLine]).state = .ShouldExit) :=
  C9_push_monotone (Client.initiate [fpGen] rpSam [bodyLine]) line220
    (some (.Ehlo sailDomain)) clientAfter220 (by decide)

/-- Claim C10: `forward_path_is_local` is true for `Postmaster` under every
configuration; for a `Regular` path it is true exactly when some hostname of
the configuration equals the path's domain; and the result depends only on
the hostnames list — never on the path's local part or on the `users` and
`relays` lists. -/
theorem C10_forward_path_locality (cfg cfg' : Config) (lp lp' : LocalPart) (d : Domain) :
    cfg.forward_path_is_local .Postmaster = true
    ∧ (cfg.forward_path_is_local (.Regular ⟨lp, d⟩) = true
        ↔ ∃ hn ∈ cfg.hostnames, Domain.deq hn d = true)
    ∧ (cfg'.hostnames = cfg.hostnames →
        cfg'.forward_path_is_local (.Regular ⟨lp', d⟩)
          = cfg.forward_path_is_local (.Regular ⟨lp, d⟩)) := by
  refine ⟨rfl, ?_, ?_⟩
  · simp [Config.forward_path_is_local, Config.path_is_local, List.any_eq_true]
  · intro hh
    simp [Config.forward_path_is_local, Config.path_is_local, hh]

/-- A configuration whose only hostname is `example.com`. -/
def cfgExample : Config :=
  ⟨[domExample], [], []⟩

/-- A configuration with the same hostnames as `cfgExample` but different
relays and users. -/
def cfgExample' : Config :=
  ⟨[domExample], [.FQDN "relay.example".toList], [⟨"root".toList⟩]⟩

/-- Witness for C10 at concrete configurations differing only in relays,
users, and the queried local part. -/
theorem C10_forward_path_locality_witness :
    cfgExample'.forward_path_is_local (.Regular ⟨⟨"ned".toList⟩, domExample⟩)
      = cfgExample.forward_path_is_local (.Regular ⟨⟨"gen".toList⟩, domExample⟩) :=
  (C10_forward_path_locality cfgExample cfgExample' ⟨"gen".toList⟩ ⟨"ned".toList⟩
    domExample).2.2 rfl

/-- Claim C4: `undeliverable` returns nothing exactly when no recipient was
rejected; otherwise it returns a notification addressed to the original
sender (with a null reverse path) whose body lines naming a rejected
recipient are exactly one rejection line per rejected recipient, in order. -/
theorem C4_undeliverable_bounce (sender : Path) (rejected : List Path) :
    undeliverable sender [] = none
    ∧ (rejected ≠ [] →
        undeliverable sender rejected
          = some ⟨.Null, [.Regular sender], bouncePreamble ++ rejected.map rejectedLine⟩
        ∧ (bouncePreamble ++ rejected.map rejectedLine).filter isRejectedLine
            = rejected.map rejectedLine) := by
  refine ⟨rfl, fun hne => ⟨?_, ?_⟩⟩
  · match rejected, hne with
    | p :: ps, _ => rfl
  · have hpre : bouncePreamble.filter isRejectedLine = [] := by decide
    have hmap : (rejected.map rejectedLine).filter isRejectedLine = rejected.map rejectedLine := by
      refine List.filter_eq_self.mpr ?_
      intro l hl
      obtain ⟨p, _, rfl⟩ := List.mem_map.mp hl
      simp [isRejectedLine, rejectedLine, List.isPrefixOf_iff_prefix]
    rw [List.filter_append, hpre, hmap, List.nil_append]

/-- Witness for C4 at a concrete sender and one rejected recipient. -/
theorem C4_undeliverable_bounce_witness :
    undeliverable pGen [pNed]
      = some ⟨.Null, [.Regular pGen], bouncePreamble ++ [pNed].map rejectedLine⟩
    ∧ (bouncePreamble ++ [pNed].map rejectedLine).filter isRejectedLine
        = [pNed].map rejectedLine :=
  (C4_undeliverable_bounce pGen [pNed]).2 (by decide)

/-- The head of the stable preference sort is the first element of the input
attaining the minimal preference. -/
theorem sortByPref_head (recs : List (Nat × List Char)) (m : Nat × List Char)
    (h : (sortByPref recs).head? = some m) : IsFirstMin recs m := by
  induction recs generalizing m with
  | nil => simp [sortByPref, List.insertionSort] at h
  | cons x t ih =>
    rw [sortByPref, List.insertionSort] at h
    rcases hs : List.insertionSort (fun a b => a.1 ≤ b.1) t with _ | ⟨y, s⟩
    · rw [hs] at h
      simp [List.orderedInsert] at h
      have ht : t = [] := by
        have hl := List.length_insertionSort (fun a b => a.1 ≤ b.1) t
        rw [hs] at hl
        exact List.length_eq_zero.mp hl.symm
      subst ht
      subst h
      exact ⟨[], [], rfl, by simp, by simp⟩
    · rw [hs] at h
      have hy : IsFirstMin t y := ih y (by rw [sortByPref, hs]; rfl)
      obtain ⟨pre, post, hdec, hpre, hpost⟩ := hy
      rw [List.orderedInsert] at h
      by_cases hxy : x.1 ≤ y.1
      · rw [if_pos hxy] at h
        simp at h
        subst h
        refine ⟨[], t, rfl, by simp, ?_⟩
        intro z hz
        rw [hdec] at hz
        rcases List.mem_append.mp hz with hz | hz
        · exact le_of_lt (lt_of_le_of_lt hxy (hpre z hz))
        · rcases List.mem_cons.mp hz with rfl | hz
          · exact hxy
          · exact le_trans hxy (hpost z hz)
      · rw [if_neg hxy] at h
        simp at h
        subst h
        refine ⟨x :: pre, post, by rw [hdec, List.cons_append], ?_, hpost⟩
        intro z hz
        rcases List.mem_cons.mp hz with rfl | hz
        · exact Nat.lt_of_not_le hxy
        · exact hpre z hz

/-- Claim C5: a literal-IP domain resolves directly (for every DNS
environment, with no lookup); for a named domain with MX records the
selected record is the first element of the MX list attaining the minimal
preference (ties broken by first-seen order) and its exchange name is the
one resolved; and concretely, MX records `[(20, b.example), (10, a.example)]`
resolve via `a.example` (to `ipA`, distinct from the addresses of
`b.example` and of `example.com` itself). -/
theorem C5_resolver_selection :
    (∀ (dns : Dns) (ip : IpAddr), Client.run_resolve_address dns (.Literal ip) = .ok ip)
    ∧ (∀ (dns : Dns) (name : List Char) (recs : List (Nat × List Char))
        (m : Nat × List Char) (ips : List IpAddr) (a : IpAddr),
        dns.mx_lookup name = some recs →
        (sortByPref recs).head? = some m →
        dns.lookup_ip m.2 = some ips →
        ips.head? = some a →
        Client.run_resolve_address dns (.FQDN name) = .ok a ∧ IsFirstMin recs m)
    ∧ Client.run_resolve_address dnsExample (.FQDN exName) = .ok ipA
    ∧ dnsExample.mx_lookup exName = some [(20, nameB), (10, nameA)]
    ∧ dnsExample.lookup_ip nameA = some [ipA]
    ∧ ipA ≠ ipB ∧ ipA ≠ ipC := by
  refine ⟨fun dns ip => rfl, ?_, by decide, by decide, by decide, by decide, by decide⟩
  intro dns name recs m ips a hmx hhead hip ha
  have hg : Client.get_mx_record dns name = some a := by
    unfold Client.get_mx_record
    rw [hmx]
    dsimp only
    rw [hhead]
    dsimp only
    rw [hip]
    exact ha
  refine ⟨?_, sortByPref_head recs m hhead⟩
  simp only [Client.run_resolve_address, hg]

/-- Witness for C5's general selection statement at the concrete DNS
environment. -/
theorem C5_resolver_selection_witness :
    Client.run_resolve_address dnsExample (.FQDN exName) = .ok ipA
    ∧ IsFirstMin [(20, nameB), (10, nameA)] (10, nameA) :=
  C5_resolver_selection.2.1 dnsExample exName [(20, nameB), (10, nameA)] (10, nameA)
    [ipA] ipA (by decide) (by decide) (by decide) (by decide)

/-- A buffer satisfying the CRLF test ends in a line feed. -/
theorem endsCRLF_getLast (x : List Char) (h : endsCRLF x = true) :
    x.getLast? = some '\n' := by
  rw [← List.head?_reverse]
  unfold endsCRLF at h
  split at h
  · rename_i tail heq
    rw [heq]
    rfl
  · exact Bool.noConfusion h

/-- Appending a CRLF-terminated line to any buffer passes the CRLF test. -/
theorem endsCRLF_append_crlf (B T : List Char) :
    endsCRLF (B ++ (T ++ ['\r', '\n'])) = true := by
  have hrev : (B ++ (T ++ ['\r', '\n'])).reverse
      = '\n' :: '\r' :: (T.reverse ++ B.reverse) := by
    simp
  unfold endsCRLF
  rw [hrev]
  rfl

/-- While a CRLF-free line is only partially buffered, the CRLF test fails,
for every prior buffer content. -/
theorem not_endsCRLF_mid (B T p rest : List Char)
    (hT : ∀ ch ∈ T, ch ≠ '\r' ∧ ch ≠ '\n')
    (hp : p ≠ []) (hrest : rest ≠ [])
    (hsplit : p ++ rest = T ++ ['\r', '\n']) :
    endsCRLF (B ++ p) = false := by
  by_contra hbc
  have htrue : endsCRLF (B ++ p) = true := by
    cases hcase : endsCRLF (B ++ p)
    · exact absurd hcase hbc
    · rfl
  have hlast : (B ++ p).getLast? = some '\n' := endsCRLF_getLast _ htrue
  have hplast : p.getLast? = some '\n' := by
    rw [List.getLast?_append_of_ne_nil B hp] at hlast
    exact hlast
  have hpmem : '\n' ∈ p := by
    obtain ⟨hne', heq⟩ := List.mem_getLast?_eq_getLast (Option.mem_def.mpr hplast)
    rw [heq]
    exact List.getLast_mem hne'
  have hrmem : '\n' ∈ rest := by
    have h1 : (p ++ rest).getLast? = rest.getLast? :=
      List.getLast?_append_of_ne_nil p hrest
    rw [hsplit] at h1
    have h2 : (T ++ ['\r', '\n']).getLast? = some '\n' := by
      rw [List.getLast?_append_of_ne_nil T (by simp)]
      rfl
    rw [h2] at h1
    obtain ⟨hne', heq⟩ := List.mem_getLast?_eq_getLast (Option.mem_def.mpr h1.symm)
    rw [heq]
    exact List.getLast_mem hne'
  have hcount : List.count '\n' (T ++ ['\r', '\n']) = 1 := by
    rw [List.count_append]
    have hTc : List.count '\n' T = 0 :=
      List.count_eq_zero.mpr (fun hm => (hT _ hm).2 rfl)
    rw [hTc]
    rfl
  have hge : 2 ≤ List.count '\n' (p ++ rest) := by
    rw [List.count_append]
    have c1 : 0 < List.count '\n' p := List.count_pos_iff.mpr hpmem
    have c2 : 0 < List.count '\n' rest := List.count_pos_iff.mpr hrmem
    omega
  rw [hsplit, hcount] at hge
  omega

/-- Fragmented feeding of the remainder of a line equals feeding that
remainder whole, for every already-consumed prefix `p` of the line. -/
theorem pushMany_fragments_aux (T : List Char)
    (hT : ∀ ch ∈ T, ch ≠ '\r' ∧ ch ≠ '\n') :
    ∀ (fs : List (List Char)) (c : Client) (p : List Char),
      (∀ f ∈ fs, f ≠ []) → fs ≠ [] →
      p ++ fs.flatten = T ++ ['\r', '\n'] →
      pushMany { c with reply := c.reply ++ p } fs = pushMany c [p ++ fs.flatten] := by
  intro fs
  induction fs with
  | nil =>
    intro c p _ hne _
    exact absurd rfl hne
  | cons f fs ih =>
    intro c p hall _ hsplit
    rcases fs with _ | ⟨f', fs'⟩
    · have hpf : p ++ f = T ++ ['\r', '\n'] := by simpa using hsplit
      simp only [List.flatten_cons, List.flatten_nil, List.append_nil]
      have hsc : Client.push { c with reply := c.reply ++ p } f = Client.push c (p ++ f) := by
        unfold Client.push
        dsimp only
        rw [List.append_assoc]
      simp only [pushMany, hsc]
    · have hf : f ≠ [] := hall f (by simp)
      have hall' : ∀ g ∈ f' :: fs', g ≠ [] := fun g hg => hall g (List.mem_cons_of_mem f hg)
      have hfne : (f' :: fs').flatten ≠ [] := by
        have hf' : f' ≠ [] := hall' f' (by simp)
        simp only [List.flatten_cons]
        intro hcontra
        exact hf' (List.append_eq_nil.mp hcontra).1
      have hp' : p ++ f ≠ [] := by
        intro hcontra
        exact hf (List.append_eq_nil.mp hcontra).2
      have hsplit' : (p ++ f) ++ (f' :: fs').flatten = T ++ ['\r', '\n'] := by
        rw [List.append_assoc]
        simpa [List.flatten_cons] using hsplit
      have hmid : endsCRLF (c.reply ++ (p ++ f)) = false :=
        not_endsCRLF_mid c.reply T (p ++ f) (f' :: fs').flatten hT hp' hfne hsplit'
      have hone : Client.push { c with reply := c.reply ++ p } f
          = .ok none { c with reply := c.reply ++ (p ++ f) } := by
        unfold Client.push
        dsimp only
        rw [List.append_assoc, hmid]
        rfl
      calc pushMany { c with reply := c.reply ++ p } (f :: f' :: fs')
          = pushMany { c with reply := c.reply ++ (p ++ f) } (f' :: fs') := by
            simp only [pushMany, hone]
        _ = pushMany c [(p ++ f) ++ (f' :: fs').flatten] :=
            ih c (p ++ f) hall' (by simp) hsplit'
        _ = pushMany c [p ++ (f :: f' :: fs').flatten] := by
            have hl : (p ++ f) ++ (f' :: fs').flatten = p ++ (f :: f' :: fs').flatten := by
              simp [List.flatten_cons]
            rw [hl]

/-- Claim C8: feeding a CRLF-terminated reply line to `push` in arbitrary
nonempty fragments — down to one character per call — emits the same
commands and ends in the same session state (including the reply buffer) as
feeding the whole line in one call, from every session state. -/
theorem C8_fragmentation (c : Client) (T : List Char) (fs : List (List Char))
    (hT : ∀ ch ∈ T, ch ≠ '\r' ∧ ch ≠ '\n')
    (hfs : ∀ f ∈ fs, f ≠ [])
    (hflat : fs.flatten = T ++ ['\r', '\n']) :
    pushMany c fs = pushMany c [T ++ ['\r', '\n']] := by
  have hne : fs ≠ [] := by
    intro hnil
    rw [hnil] at hflat
    simp at hflat
  have haux := pushMany_fragments_aux T hT fs c [] hfs hne (by simpa using hflat)
  have hc : ({ c with reply := c.reply ++ [] } : Client) = c := by
    rw [List.append_nil]
  rw [hc, List.nil_append, hflat] at haux
  exact haux

/-- Witness for C8 at a concrete session and a concrete four-way split of
`"220 ok\r\n"`. -/
theorem C8_fragmentation_witness :
    pushMany (Client.initiate [fpGen] rpSam [bodyLine])
        [['2'], ['2', '0', ' '], ['o', 'k', '\r'], ['\n']]
      = pushMany (Client.initiate [fpGen] rpSam [bodyLine])
          ["220 ok".toList ++ ['\r', '\n']] :=
  C8_fragmentation (Client.initiate [fpGen] rpSam [bodyLine]) "220 ok".toList
    [['2'], ['2', '0', ' '], ['o', 'k', '\r'], ['\n']] (by decide) (by decide) (by decide)

end Sail
